import Mathlib

set_option maxHeartbeats 1000000

/- Shallow embedding of the protocol layer of src/BLE_TEST_CLIENT.py.

   The embedding models, from the source:
   - the strict UTF-8 decoding performed by bytes.decode('utf-8');
   - json.loads on the integer-numeral fragment of JSON that the protocol
     uses (float literals, NaN/Infinity and lone-surrogate escapes are
     treated as parse failures; the protocol never emits them), including
     Python's rejection of leading zeros and trailing data, and its
     last-duplicate-wins dictionary construction, modelled by a lookup
     that prefers the last binding of a key;
   - json.dumps with the default separators (", " and ": ") and default
     ensure_ascii behaviour;
   - the notification handler closure created by notification_handler,
     with its two except clauses (json.JSONDecodeError giving the raw hex
     display, any other exception giving the generic error report);
   - read_device_info, send_command, and the command dictionaries built by
     interactive_mode. -/

inductive Json where
  | null : Json
  | bool (b : Bool) : Json
  | int (n : Int) : Json
  | str (s : String) : Json
  | arr (elems : List Json) : Json
  | obj (fields : List (String × Json)) : Json

/-! ### Characters and lexing helpers -/

def objOpen : Char := '\x7b'

def objClose : Char := '\x7d'

/-- The whitespace characters accepted between JSON tokens by json.loads. -/
def isWs (c : Char) : Bool := c == ' ' || c == '\t' || c == '\n' || c == '\r'

def skipWs : List Char → List Char
  | [] => []
  | c :: cs => if isWs c then skipWs cs else c :: cs

def hexVal (c : Char) : Option Nat :=
  if '0' ≤ c ∧ c ≤ '9' then some (c.toNat - 48)
  else if 'a' ≤ c ∧ c ≤ 'f' then some (c.toNat - 87)
  else if 'A' ≤ c ∧ c ≤ 'F' then some (c.toNat - 55)
  else none

def unescapeChar (c : Char) : Option Char :=
  if c = '"' then some '"'
  else if c = '\\' then some '\\'
  else if c = '/' then some '/'
  else if c = 'b' then some (Char.ofNat 8)
  else if c = 'f' then some (Char.ofNat 12)
  else if c = 'n' then some '\n'
  else if c = 'r' then some '\r'
  else if c = 't' then some '\t'
  else none

/-- Body of a JSON string after the opening quote: the decoded characters and
    the remainder after the closing quote.  Raw control characters are
    rejected (json.loads runs in strict mode); surrogate escape values are
    rejected (a model restriction: Lean characters are scalar values). -/
def parseStringRest : List Char → Option (List Char × List Char)
  | [] => none
  | '"' :: cs => some ([], cs)
  | '\\' :: 'u' :: h1 :: h2 :: h3 :: h4 :: cs2 =>
    (match hexVal h1, hexVal h2, hexVal h3, hexVal h4 with
     | some a, some b, some c3, some d =>
       let cp := ((a * 16 + b) * 16 + c3) * 16 + d
       if cp < 55296 ∨ 57343 < cp then
         match parseStringRest cs2 with
         | some (s, r) => some (Char.ofNat cp :: s, r)
         | none => none
       else none
     | _, _, _, _ => none)
  | '\\' :: e :: cs1 =>
    (match unescapeChar e with
     | some c2 =>
       match parseStringRest cs1 with
       | some (s, r) => some (c2 :: s, r)
       | none => none
     | none => none)
  | c :: cs =>
    if c.toNat < 32 then none
    else
      match parseStringRest cs with
      | some (s, r) => some (c :: s, r)
      | none => none

def takeDigits : List Char → List Char × List Char
  | [] => ([], [])
  | c :: cs =>
    if c.isDigit then
      match takeDigits cs with
      | (ds, r) => (c :: ds, r)
    else ([], c :: cs)

def digitsVal (ds : List Char) : Nat :=
  ds.foldl (fun a c => a * 10 + (c.toNat - 48)) 0

/-- An unsigned decimal numeral, rejecting leading zeros and any following
    `.`, `e` or `E` (a float literal, outside the modelled fragment). -/
def parseNatNum (cs : List Char) : Option (Nat × List Char) :=
  match takeDigits cs with
  | (ds, rest) =>
    if ds = [] then none
    else if 1 < ds.length ∧ ds.head? = some '0' then none
    else
      match rest with
      | [] => some (digitsVal ds, [])
      | c :: r => if c = '.' ∨ c = 'e' ∨ c = 'E' then none else some (digitsVal ds, c :: r)

/-- A remainder that cannot extend a numeral: empty, or headed by a
    character that is no digit and none of `.`, `e`, `E`.  Every JSON
    delimiter and separator qualifies. -/
def numBoundary : List Char → Bool
  | [] => true
  | c :: _ => !c.isDigit && c != '.' && c != 'e' && c != 'E'

def parseNumber (cs : List Char) : Option (Int × List Char) :=
  match cs with
  | [] => none
  | c :: cs1 =>
    if c = '-' then
      match parseNatNum cs1 with
      | some (n, r) => some (-(n : Int), r)
      | none => none
    else
      match parseNatNum (c :: cs1) with
      | some (n, r) => some ((n : Int), r)
      | none => none

/-! ### The recursive descent parser

A single function, structurally recursive on a fuel counter, with a mode
selecting which grammar production is being read.  Every recursive call
decrements the fuel, so concrete inputs evaluate by kernel reduction. -/

inductive PMode where
  | value : PMode
  | objBody : PMode
  | objKV : PMode
  | arrBody : PMode
  | arrVal : PMode

inductive PRes where
  | v (j : Json) : PRes
  | fs (l : List (String × Json)) : PRes
  | xs (l : List Json) : PRes

def parseStep : Nat → PMode → List Char → Option (PRes × List Char)
  | 0, _, _ => none
  | f + 1, PMode.value, cs =>
    match skipWs cs with
    | [] => none
    | c :: rest =>
      if c = '"' then
        match parseStringRest rest with
        | some (s, r) => some (PRes.v (Json.str (String.mk s)), r)
        | none => none
      else if c = objOpen then
        match parseStep f PMode.objBody rest with
        | some (PRes.fs l, r) => some (PRes.v (Json.obj l), r)
        | _ => none
      else if c = '[' then
        match parseStep f PMode.arrBody rest with
        | some (PRes.xs l, r) => some (PRes.v (Json.arr l), r)
        | _ => none
      else if c = 'n' then
        match rest with
        | 'u' :: 'l' :: 'l' :: r => some (PRes.v Json.null, r)
        | _ => none
      else if c = 't' then
        match rest with
        | 'r' :: 'u' :: 'e' :: r => some (PRes.v (Json.bool true), r)
        | _ => none
      else if c = 'f' then
        match rest with
        | 'a' :: 'l' :: 's' :: 'e' :: r => some (PRes.v (Json.bool false), r)
        | _ => none
      else if c = '-' ∨ c.isDigit = true then
        match parseNumber (c :: rest) with
        | some (m, r) => some (PRes.v (Json.int m), r)
        | none => none
      else none
  | f + 1, PMode.objBody, cs =>
    match skipWs cs with
    | [] => none
    | c :: rest =>
      if c = objClose then some (PRes.fs [], rest)
      else parseStep f PMode.objKV (c :: rest)
  | f + 1, PMode.objKV, cs =>
    match skipWs cs with
    | [] => none
    | c :: rest =>
      if c = '"' then
        match parseStringRest rest with
        | some (k, r1) =>
          match skipWs r1 with
          | c2 :: r2 =>
            if c2 = ':' then
              match parseStep f PMode.value r2 with
              | some (PRes.v v, r3) =>
                match skipWs r3 with
                | c3 :: r4 =>
                  if c3 = ',' then
                    match parseStep f PMode.objKV r4 with
                    | some (PRes.fs l, r5) => some (PRes.fs ((String.mk k, v) :: l), r5)
                    | _ => none
                  else if c3 = objClose then some (PRes.fs [(String.mk k, v)], r4)
                  else none
                | [] => none
              | _ => none
            else none
          | [] => none
        | none => none
      else none
  | f + 1, PMode.arrBody, cs =>
    match skipWs cs with
    | [] => none
    | c :: rest =>
      if c = ']' then some (PRes.xs [], rest)
      else parseStep f PMode.arrVal (c :: rest)
  | f + 1, PMode.arrVal, cs =>
    match parseStep f PMode.value cs with
    | some (PRes.v v, r1) =>
      match skipWs r1 with
      | c :: r2 =>
        if c = ',' then
          match parseStep f PMode.arrVal r2 with
          | some (PRes.xs l, r3) => some (PRes.xs (v :: l), r3)
          | _ => none
        else if c = ']' then some (PRes.xs [v], r2)
        else none
      | [] => none
    | _ => none

/-- json.loads on a character list: parse one document, then require only
    whitespace to the end.  Three fuel units per character cover the worst
    case of fuel spent per character consumed. -/
def jsonParse (cs : List Char) : Option Json :=
  match parseStep (3 * cs.length + 3) PMode.value cs with
  | some (PRes.v v, rest) =>
    match skipWs rest with
    | [] => some v
    | _ => none
  | _ => none

/-! ### Rendering (json.dumps with default options) -/

def digitChar (d : Nat) : Char := Char.ofNat (48 + d)

/-- Decimal digit characters of a natural number, most significant first. -/
def natChars (n : Nat) : List Char :=
  if n = 0 then ['0'] else ((Nat.digits 10 n).reverse).map digitChar

/-- The characters of an integer numeral as json.dumps prints it. -/
def intChars (m : Int) : List Char :=
  if m < 0 then '-' :: natChars m.natAbs else natChars m.natAbs

def hexDigitChar (n : Nat) : Char :=
  if n < 10 then Char.ofNat (48 + n) else Char.ofNat (87 + n)

def uEscape (n : Nat) : List Char :=
  ['\\', 'u', hexDigitChar (n / 4096 % 16), hexDigitChar (n / 256 % 16),
   hexDigitChar (n / 16 % 16), hexDigitChar (n % 16)]

/-- One string character as json.dumps emits it: the two-character escapes,
    \u00XX for other control characters, and (ensure_ascii) \uXXXX or a
    surrogate pair for non-ASCII characters. -/
def escapeChar (c : Char) : List Char :=
  if c = '"' then ['\\', '"']
  else if c = '\\' then ['\\', '\\']
  else if c = Char.ofNat 8 then ['\\', 'b']
  else if c = Char.ofNat 12 then ['\\', 'f']
  else if c = '\n' then ['\\', 'n']
  else if c = '\r' then ['\\', 'r']
  else if c = '\t' then ['\\', 't']
  else if c.toNat < 32 then uEscape c.toNat
  else if c.toNat < 127 then [c]
  else if c.toNat < 65536 then uEscape c.toNat
  else uEscape (55296 + (c.toNat - 65536) / 1024) ++ uEscape (56320 + (c.toNat - 65536) % 1024)

def renderString (s : String) : List Char :=
  '"' :: (s.data.flatMap escapeChar ++ ['"'])

mutual

def renderJson : Json → List Char
  | Json.null => ['n', 'u', 'l', 'l']
  | Json.bool true => ['t', 'r', 'u', 'e']
  | Json.bool false => ['f', 'a', 'l', 's', 'e']
  | Json.int m => intChars m
  | Json.str s => renderString s
  | Json.arr xs => '[' :: (renderArrItems xs ++ [']'])
  | Json.obj fs => objOpen :: (renderObjItems fs ++ [objClose])

def renderArrItems : List Json → List Char
  | [] => []
  | [x] => renderJson x
  | x :: y :: xs => renderJson x ++ ',' :: ' ' :: renderArrItems (y :: xs)

def renderObjItems : List (String × Json) → List Char
  | [] => []
  | [(k, v)] => renderString k ++ ':' :: ' ' :: renderJson v
  | (k, v) :: p :: fs =>
    (renderString k ++ ':' :: ' ' :: renderJson v) ++ ',' :: ' ' :: renderObjItems (p :: fs)

end

def dumps (j : Json) : String := String.mk (renderJson j)

/-! ### UTF-8 (bytes.decode('utf-8') / str.encode('utf-8'), strict) -/

def encodeChar (c : Char) : List Nat :=
  if c.toNat < 128 then [c.toNat]
  else if c.toNat < 2048 then [192 + c.toNat / 64, 128 + c.toNat % 64]
  else if c.toNat < 65536 then [224 + c.toNat / 4096, 128 + c.toNat / 64 % 64, 128 + c.toNat % 64]
  else [240 + c.toNat / 262144, 128 + c.toNat / 4096 % 64, 128 + c.toNat / 64 % 64, 128 + c.toNat % 64]

def strToUtf8 (s : String) : List Nat := s.data.flatMap encodeChar

def contOK (b : Nat) : Bool := 128 ≤ b && b < 192

/-- Strict UTF-8 decoding: stray continuation bytes, overlong forms,
    surrogates and values beyond U+10FFFF are rejected, as by
    bytes.decode('utf-8').  Structurally recursive on a fuel counter that
    every recursive call decrements; one unit per decoded character plus
    one always suffices. -/
def utf8DecodeF : Nat → List Nat → Option (List Char)
  | 0, _ => none
  | _ + 1, [] => some []
  | f + 1, b :: bs =>
    if b < 128 then
      match utf8DecodeF f bs with
      | some cs => some (Char.ofNat b :: cs)
      | none => none
    else if b < 194 then none
    else if b < 224 then
      match bs with
      | b1 :: bs1 =>
        if contOK b1 then
          match utf8DecodeF f bs1 with
          | some cs => some (Char.ofNat ((b - 192) * 64 + (b1 - 128)) :: cs)
          | none => none
        else none
      | [] => none
    else if b < 240 then
      match bs with
      | b1 :: b2 :: bs2 =>
        if (if b = 224 then decide (160 ≤ b1) && decide (b1 < 192)
            else if b = 237 then decide (128 ≤ b1) && decide (b1 < 160)
            else contOK b1) && contOK b2 then
          match utf8DecodeF f bs2 with
          | some cs => some (Char.ofNat ((b - 224) * 4096 + (b1 - 128) * 64 + (b2 - 128)) :: cs)
          | none => none
        else none
      | _ => none
    else if b < 245 then
      match bs with
      | b1 :: b2 :: b3 :: bs3 =>
        if (if b = 240 then decide (144 ≤ b1) && decide (b1 < 192)
            else if b = 244 then decide (128 ≤ b1) && decide (b1 < 144)
            else contOK b1) && contOK b2 && contOK b3 then
          match utf8DecodeF f bs3 with
          | some cs =>
            some (Char.ofNat ((b - 240) * 262144 + (b1 - 128) * 4096 + (b2 - 128) * 64 + (b3 - 128)) :: cs)
          | none => none
        else none
      | _ => none
    else none

def utf8Decode (bs : List Nat) : Option (List Char) := utf8DecodeF (bs.length + 1) bs

/-- json.loads(data.decode('utf-8')) as one partial function on bytes. -/
def parsePayload (data : List Nat) : Option Json :=
  match utf8Decode data with
  | some cs => jsonParse cs
  | none => none

/-! ### Python dictionary access on parsed documents -/

/-- dict lookup for a document built by json.loads: with duplicate keys the
    last binding wins, so later bindings shadow earlier ones. -/
def jGet : List (String × Json) → String → Option Json
  | [], _ => none
  | (k, v) :: rest, key =>
    match jGet rest key with
    | some r => some r
    | none => if k = key then some v else none

/-- dict.get with a default. -/
def jGetD (fields : List (String × Json)) (key : String) (d : Json) : Json :=
  (jGet fields key).getD d

/-- Python truthiness of a JSON-derived value. -/
def pyTruthy : Json → Bool
  | Json.null => false
  | Json.bool b => b
  | Json.int n => n != 0
  | Json.str s => s != ""
  | Json.arr xs => !xs.isEmpty
  | Json.obj fs => !fs.isEmpty

/-! ### The model of the client (src/BLE_TEST_CLIENT.py) -/

def SERVICE_UUID : String := "6E400001-B5A3-F393-E0A9-E50E24DCCA9E"

def COMMAND_CHAR_UUID : String := "6E400002-B5A3-F393-E0A9-E50E24DCCA9E"

def STATE_CHAR_UUID : String := "6E400003-B5A3-F393-E0A9-E50E24DCCA9E"

def DEBUG_CHAR_UUID : String := "6E400004-B5A3-F393-E0A9-E50E24DCCA9E"

def INFO_CHAR_UUID : String := "6E400005-B5A3-F393-E0A9-E50E24DCCA9E"

/-- The exceptions the handler body can raise. -/
inductive PyExc where
  | unicodeDecodeError : PyExc
  | jsonDecodeError : PyExc
  | attributeError : PyExc
  | typeError : PyExc

/-- What one invocation of the notification handler prints. -/
inductive Display where
  | stateShown (track artist playing volume : Json) : Display
  | genericShown (message : Json) : Display
  | debugShown (symbol : String) (level logType msg : Json) (dataAttachment : Option Json) : Display
  | noDisplay : Display
  | rawHex (data : List Nat) : Display
  | errorReport (e : PyExc) : Display

def level_symbols : List (String × String) :=
  [("ERROR", "❌"), ("WARNING", "⚠️"), ("INFO", "ℹ️"), ("DEBUG", "🔧"), ("VERBOSE", "📝")]

/-- level_symbols.get(level, "📝"): list and dict values are unhashable and
    raise TypeError; any other non-string value misses and gets the default. -/
def symbolFor : Json → Except PyExc String
  | Json.arr _ => Except.error PyExc.typeError
  | Json.obj _ => Except.error PyExc.typeError
  | Json.str s => Except.ok ((level_symbols.lookup s).getD "📝")
  | _ => Except.ok "📝"

/-- The data attachment of a debug message: printed only when
    message.get("data") is truthy. -/
def dataAtt (fields : List (String × Json)) : Option Json :=
  match jGet fields "data" with
  | some v => if pyTruthy v then some v else none
  | none => none

/-- The try block of the handler closure (lines 83-113): everything it can
    raise is an exception value of the result type. -/
def tryBody (charUuid : String) (data : List Nat) : Except PyExc Display :=
  match utf8Decode data with
  | none => Except.error PyExc.unicodeDecodeError
  | some cs =>
    match jsonParse cs with
    | none => Except.error PyExc.jsonDecodeError
    | some message =>
      if charUuid = STATE_CHAR_UUID then
        match message with
        | Json.obj fields =>
          match jGet fields "type" with
          | some (Json.str t) =>
            if t = "stateUpdate" then
              Except.ok (Display.stateShown
                (jGetD fields "track" (Json.str "Unknown"))
                (jGetD fields "artist" (Json.str "Unknown"))
                (jGetD fields "is_playing" (Json.bool false))
                (jGetD fields "volume_percent" (Json.int 0)))
            else Except.ok (Display.genericShown message)
          | _ => Except.ok (Display.genericShown message)
        | _ => Except.error PyExc.attributeError
      else if charUuid = DEBUG_CHAR_UUID then
        match message with
        | Json.obj fields =>
          match symbolFor (jGetD fields "level" (Json.str "INFO")) with
          | Except.error e => Except.error e
          | Except.ok sym =>
            Except.ok (Display.debugShown sym
              (jGetD fields "level" (Json.str "INFO"))
              (jGetD fields "type" (Json.str "LOG"))
              (jGetD fields "message" (Json.str ""))
              (dataAtt fields))
        | _ => Except.error PyExc.attributeError
      else Except.ok Display.noDisplay

/-- The whole handler closure: the try block wrapped in the two except
    clauses — json.JSONDecodeError prints the raw hex of the payload, every
    other exception prints a generic error report.  Total by construction:
    no exception escapes. -/
def notification_handler (charUuid : String) (data : List Nat) : Display :=
  match tryBody charUuid data with
  | Except.ok d => d
  | Except.error PyExc.jsonDecodeError => Display.rawHex data
  | Except.error e => Display.errorReport e

/-- What read_device_info prints for a given payload of the info
    characteristic (lines 69-77): the parsed capabilities, or the failure
    message from its except clause. -/
inductive InfoDisplay where
  | infoShown (info : Json) : InfoDisplay
  | infoFailed (e : PyExc) : InfoDisplay

def read_device_info (data : List Nat) : InfoDisplay :=
  match utf8Decode data with
  | none => InfoDisplay.infoFailed PyExc.unicodeDecodeError
  | some cs =>
    match jsonParse cs with
    | none => InfoDisplay.infoFailed PyExc.jsonDecodeError
    | some info => InfoDisplay.infoShown info

/-- The operator intents of interactive_mode that reach send_command. -/
inductive Intent where
  | play : Intent
  | pause : Intent
  | next : Intent
  | prev : Intent
  | seek (ms : Int) : Intent
  | vol (percent : Int) : Intent

/-- The command dictionary interactive_mode builds for an intent
    (lines 165-178).  No validation of the numeric arguments is performed. -/
def dispatchCommand : Intent → Json
  | Intent.play => Json.obj [("command", Json.str "play")]
  | Intent.pause => Json.obj [("command", Json.str "pause")]
  | Intent.next => Json.obj [("command", Json.str "next")]
  | Intent.prev => Json.obj [("command", Json.str "previous")]
  | Intent.seek ms => Json.obj [("command", Json.str "seek_to"), ("value_ms", Json.int ms)]
  | Intent.vol p => Json.obj [("command", Json.str "set_volume"), ("value_percent", Json.int p)]

/-- send_command: the bytes written to the command characteristic,
    json.dumps(command).encode('utf-8'). -/
def send_command (command : Json) : List Nat := strToUtf8 (dumps command)

/-- The transport writes an intent causes: always exactly one, with no
    validation in between. -/
def interactiveWrites (i : Intent) : List (List Nat) :=
  [send_command (dispatchCommand i)]

/-- A command that is valid per the data model of the specification. -/
def validCommand : Intent → Prop
  | Intent.seek ms => 0 ≤ ms
  | Intent.vol p => 0 ≤ p ∧ p ≤ 100
  | _ => True

/-- Modelled from the spec: the fields the data model of the specification
    (§3) declares for each command tag. -/
def specFieldsFor : Intent → List String
  | Intent.play => ["command"]
  | Intent.pause => ["command"]
  | Intent.next => ["command"]
  | Intent.prev => ["command"]
  | Intent.seek _ => ["command", "value_ms"]
  | Intent.vol _ => ["command", "value_percent"]

def tagOf : Intent → String
  | Intent.play => "play"
  | Intent.pause => "pause"
  | Intent.next => "next"
  | Intent.prev => "previous"
  | Intent.seek _ => "seek_to"
  | Intent.vol _ => "set_volume"

def objKeys : Json → List String
  | Json.obj fs => fs.map Prod.fst
  | _ => []

def objField (j : Json) (key : String) : Option Json :=
  match j with
  | Json.obj fs => jGet fs key
  | _ => none

def Json.isObj : Json → Bool
  | Json.obj _ => true
  | _ => false

def Display.isRawHex : Display → Bool
  | Display.rawHex _ => true
  | _ => false

/-! ### Concrete payloads for the end-to-end scenarios -/

def deadbeefBytes : List Nat := [222, 173, 190, 239]

def stateScenarioBytes : List Nat :=
  strToUtf8 "\x7b\"type\":\"stateUpdate\",\"track\":\"Song A\",\"is_playing\":true\x7d"

def bogusLevelBytes : List Nat := strToUtf8 "\x7b\"level\":\"BOGUS\"\x7d"

def weirdLevelBytes : List Nat := strToUtf8 "\x7b\"level\":\"WEIRD\",\"message\":\"hi\"\x7d"

def notJsonBytes : List Nat := strToUtf8 "@@@"

def bareNumberBytes : List Nat := strToUtf8 "42"

def falsyDataBytes : List Nat := strToUtf8 "\x7b\"data\":0\x7d"

def oopsBytes : List Nat := strToUtf8 "not structured"

/-! ### Numeral lemmas: the parser inverts the renderer on integer numerals -/

theorem digitChar_toNat (d : Nat) (h : d < 10) : (digitChar d).toNat = 48 + d := by
  interval_cases d <;> rfl

theorem digitChar_isDigit (d : Nat) (h : d < 10) : (digitChar d).isDigit = true := by
  interval_cases d <;> decide

theorem natChars_ne_nil (n : Nat) : natChars n ≠ [] := by
  by_cases h : n = 0
  · subst h; simp [natChars]
  · simp [natChars, h, Nat.digits_ne_nil_iff_ne_zero.mpr h]

theorem natChars_digits (n : Nat) : ∀ c ∈ natChars n, c.isDigit = true := by
  intro c hc
  by_cases h : n = 0
  · subst h; simp [natChars] at hc; subst hc; decide
  · simp only [natChars, if_neg h, List.mem_map, List.mem_reverse] at hc
    obtain ⟨d, hd, rfl⟩ := hc
    exact digitChar_isDigit d (Nat.digits_lt_base (by norm_num) hd)

theorem natChars_head_ne_zero (n : Nat) (h : n ≠ 0) : (natChars n).head? ≠ some '0' := by
  have hnil : Nat.digits 10 n ≠ [] := Nat.digits_ne_nil_iff_ne_zero.mpr h
  have hlast : (Nat.digits 10 n).getLast hnil ≠ 0 := Nat.getLast_digit_ne_zero 10 h
  have hmem : (Nat.digits 10 n).getLast hnil ∈ Nat.digits 10 n := List.getLast_mem hnil
  have hlt : (Nat.digits 10 n).getLast hnil < 10 := Nat.digits_lt_base (by norm_num) hmem
  simp only [natChars, if_neg h]
  rw [List.head?_map, List.head?_reverse, List.getLast?_eq_getLast_of_ne_nil hnil]
  intro hcon
  simp only [Option.map_some', Option.some.injEq] at hcon
  have := congrArg Char.toNat hcon
  rw [digitChar_toNat _ hlt, show ('0' : Char).toNat = 48 from rfl] at this
  exact hlast (by omega)

theorem foldl_digitChar_cong (L : List Nat) :
    ∀ a : Nat, (∀ d ∈ L, d < 10) →
      L.foldl (fun a d => a * 10 + ((digitChar d).toNat - 48)) a
        = L.foldl (fun a d => a * 10 + d) a := by
  induction L with
  | nil => intro a _; rfl
  | cons d L ih =>
    intro a hmem
    have hd : d < 10 := hmem d (List.mem_cons_self d L)
    simp only [List.foldl_cons, digitChar_toNat d hd]
    rw [show 48 + d - 48 = d by omega]
    exact ih _ (fun x hx => hmem x (List.mem_cons_of_mem d hx))

theorem foldr_ofDigits (L : List Nat) :
    L.foldr (fun d a => a * 10 + d) 0 = Nat.ofDigits 10 L := by
  induction L with
  | nil => rfl
  | cons d L ih =>
    simp only [List.foldr_cons, ih, Nat.ofDigits_cons]
    omega

theorem digitsVal_natChars (n : Nat) : digitsVal (natChars n) = n := by
  by_cases h : n = 0
  · subst h; rfl
  · have hmem : ∀ d ∈ (Nat.digits 10 n).reverse, d < 10 := by
      intro d hd
      rw [List.mem_reverse] at hd
      exact Nat.digits_lt_base (by norm_num) hd
    simp only [digitsVal, natChars, if_neg h]
    rw [List.foldl_map, foldl_digitChar_cong _ 0 hmem, List.foldl_reverse]
    have : (Nat.digits 10 n).foldr (fun x y => (fun a d => a * 10 + d) y x) 0
        = (Nat.digits 10 n).foldr (fun d a => a * 10 + d) 0 := rfl
    rw [this, foldr_ofDigits, Nat.ofDigits_digits]

theorem takeDigits_stop (cs : List Char) (h : numBoundary cs = true) :
    takeDigits cs = ([], cs) := by
  match cs with
  | [] => rfl
  | c :: t =>
    simp only [numBoundary, Bool.and_eq_true, Bool.not_eq_true'] at h
    simp [takeDigits, h.1.1.1]

theorem takeDigits_run (ds rest : List Char) (h1 : ∀ c ∈ ds, c.isDigit = true)
    (h2 : numBoundary rest = true) : takeDigits (ds ++ rest) = (ds, rest) := by
  induction ds with
  | nil => simpa using takeDigits_stop rest h2
  | cons c t ih =>
    have hc : c.isDigit = true := h1 c (List.mem_cons_self c t)
    have ht := ih (fun x hx => h1 x (List.mem_cons_of_mem c hx))
    simp [takeDigits, hc, ht]

theorem natChars_cons (n : Nat) :
    ∃ c t, natChars n = c :: t ∧ c.isDigit = true := by
  match h : natChars n with
  | [] => exact absurd h (natChars_ne_nil n)
  | c :: t => exact ⟨c, t, rfl, natChars_digits n c (h ▸ List.mem_cons_self c t)⟩

theorem parseNatNum_natChars (n : Nat) (rest : List Char) (h : numBoundary rest = true) :
    parseNatNum (natChars n ++ rest) = some (n, rest) := by
  have htd := takeDigits_run (natChars n) rest (natChars_digits n) h
  have hcheck : ¬(1 < (natChars n).length ∧ (natChars n).head? = some '0') := by
    by_cases hn : n = 0
    · subst hn; simp [natChars]
    · rintro ⟨-, hz⟩; exact natChars_head_ne_zero n hn hz
  simp only [parseNatNum, htd, if_neg (natChars_ne_nil n), if_neg hcheck]
  match rest, h with
  | [], _ => simp [digitsVal_natChars]
  | c :: r, h =>
    simp only [numBoundary, Bool.and_eq_true, bne_iff_ne] at h
    have : ¬(c = '.' ∨ c = 'e' ∨ c = 'E') := by
      rintro (rfl | rfl | rfl)
      · exact h.1.1.2 rfl
      · exact h.1.2 rfl
      · exact h.2 rfl
    simp [this, digitsVal_natChars]

theorem isDigit_ne_minus (c : Char) (h : c.isDigit = true) : c ≠ '-' := by
  rintro rfl; exact absurd h (by decide)

theorem parseNumber_intChars (m : Int) (rest : List Char) (h : numBoundary rest = true) :
    parseNumber (intChars m ++ rest) = some (m, rest) := by
  by_cases hm : m < 0
  · have harg : intChars m ++ rest = '-' :: (natChars m.natAbs ++ rest) := by
      simp [intChars, hm]
    rw [harg]
    simp only [parseNumber, if_pos rfl, parseNatNum_natChars _ _ h]
    have hval : -(m.natAbs : Int) = m := by omega
    simp [hval]
    rw [abs_of_neg hm]
    exact neg_neg m
  · obtain ⟨c, t, hct, hc⟩ := natChars_cons m.natAbs
    have harg : intChars m ++ rest = c :: (t ++ rest) := by
      simp [intChars, hm, hct]
    rw [harg]
    simp only [parseNumber, if_neg (isDigit_ne_minus c hc)]
    have hback : c :: (t ++ rest) = natChars m.natAbs ++ rest := by rw [hct]; rfl
    rw [hback, parseNatNum_natChars _ _ h]
    have hval : (m.natAbs : Int) = m := by omega
    simp [hval]

/-! ### Dispatch lemmas: parsing a rendered integer value -/

theorem isWs_false_of_num (c : Char) (h : c = '-' ∨ c.isDigit = true) : isWs c = false := by
  rcases h with rfl | h
  · decide
  · have h1 : c ≠ ' ' := by rintro rfl; exact absurd h (by decide)
    have h2 : c ≠ '\t' := by rintro rfl; exact absurd h (by decide)
    have h3 : c ≠ '\n' := by rintro rfl; exact absurd h (by decide)
    have h4 : c ≠ '\r' := by rintro rfl; exact absurd h (by decide)
    simp only [isWs, Bool.or_eq_false_iff, beq_eq_false_iff_ne]
    exact ⟨⟨⟨h1, h2⟩, h3⟩, h4⟩

theorem num_head_facts (c : Char) (h : c = '-' ∨ c.isDigit = true) :
    c ≠ '"' ∧ c ≠ objOpen ∧ c ≠ '[' ∧ c ≠ 'n' ∧ c ≠ 't' ∧ c ≠ 'f' := by
  rcases h with rfl | h
  · exact ⟨by decide, by decide, by decide, by decide, by decide, by decide⟩
  · refine ⟨?_, ?_, ?_, ?_, ?_, ?_⟩ <;> (rintro rfl; exact absurd h (by decide))

theorem skipWs_cons_false (c : Char) (cs : List Char) (h : isWs c = false) :
    skipWs (c :: cs) = c :: cs := by
  simp [skipWs, h]

theorem intChars_head (m : Int) :
    ∃ c t, intChars m = c :: t ∧ (c = '-' ∨ c.isDigit = true) := by
  by_cases hm : m < 0
  · exact ⟨'-', natChars m.natAbs, by simp [intChars, hm], Or.inl rfl⟩
  · obtain ⟨c, t, hct, hc⟩ := natChars_cons m.natAbs
    exact ⟨c, t, by simp [intChars, hm, hct], Or.inr hc⟩

theorem parseStep_ws_value_int (f : Nat) (m : Int) (rest : List Char)
    (h : numBoundary rest = true) :
    parseStep (f + 1) PMode.value (' ' :: (intChars m ++ rest))
      = some (PRes.v (Json.int m), rest) := by
  obtain ⟨c, t, hct, hc⟩ := intChars_head m
  have hcons : intChars m ++ rest = c :: (t ++ rest) := by rw [hct]; rfl
  have hskip : skipWs (' ' :: (intChars m ++ rest)) = c :: (t ++ rest) := by
    rw [show skipWs (' ' :: (intChars m ++ rest)) = skipWs (intChars m ++ rest) from by
      simp [skipWs, isWs]]
    rw [hcons, skipWs_cons_false _ _ (isWs_false_of_num c hc)]
  obtain ⟨h1, h2, h3, h4, h5, h6⟩ := num_head_facts c hc
  simp only [parseStep]
  rw [hskip]
  simp only [if_neg h1, if_neg h2, if_neg h3, if_neg h4, if_neg h5, if_neg h6, if_pos hc]
  rw [show c :: (t ++ rest) = intChars m ++ rest from hcons.symm, parseNumber_intChars m rest h]

/-! ### Parsing the rendered command dictionaries -/

theorem parseKV_last_ms (g : Nat) (m : Int) :
    parseStep (g + 1 + 1) PMode.objKV
      (' ' :: '"' :: ("value_ms\":".data ++ (' ' :: (intChars m ++ [objClose]))))
      = some (PRes.fs [("value_ms", Json.int m)], []) := by
  have key := parseStep_ws_value_int g m [objClose] (by decide)
  show (match parseStep (g + 1) PMode.value (' ' :: (intChars m ++ [objClose])) with
        | some (PRes.v v, r3) =>
          match skipWs r3 with
          | c3 :: r4 =>
            if c3 = ',' then
              match parseStep (g + 1) PMode.objKV r4 with
              | some (PRes.fs l, r5) => some (PRes.fs (("value_ms", v) :: l), r5)
              | _ => none
            else if c3 = objClose then some (PRes.fs [("value_ms", v)], r4)
            else none
          | [] => none
        | _ => none)
      = some (PRes.fs [("value_ms", Json.int m)], [])
  rw [key]
  rfl

theorem parseKV_seek (g : Nat) (m : Int) :
    parseStep (g + 1 + 1 + 1) PMode.objKV
      ('"' :: ("command\": \"seek_to\", \"value_ms\":".data ++ (' ' :: (intChars m ++ [objClose]))))
      = some (PRes.fs [("command", Json.str "seek_to"), ("value_ms", Json.int m)], []) := by
  have key := parseKV_last_ms g m
  show (match parseStep (g + 1 + 1) PMode.objKV
          (' ' :: '"' :: ("value_ms\":".data ++ (' ' :: (intChars m ++ [objClose])))) with
        | some (PRes.fs l, r5) => some (PRes.fs (("command", Json.str "seek_to") :: l), r5)
        | _ => none)
      = some (PRes.fs [("command", Json.str "seek_to"), ("value_ms", Json.int m)], [])
  rw [key]

theorem parseStep_seek (e : Nat) (m : Int) :
    parseStep (e + 1 + 1 + 1 + 1 + 1) PMode.value (renderJson (dispatchCommand (Intent.seek m)))
      = some (PRes.v (dispatchCommand (Intent.seek m)), []) := by
  have key := parseKV_seek e m
  show (match parseStep (e + 1 + 1 + 1 + 1) PMode.objBody
          ("\"command\": \"seek_to\", \"value_ms\":".data ++ (' ' :: (intChars m ++ [objClose]))) with
        | some (PRes.fs l, r) => some (PRes.v (Json.obj l), r)
        | _ => none)
      = some (PRes.v (dispatchCommand (Intent.seek m)), [])
  have kb : parseStep (e + 1 + 1 + 1 + 1) PMode.objBody
      ("\"command\": \"seek_to\", \"value_ms\":".data ++ (' ' :: (intChars m ++ [objClose])))
      = some (PRes.fs [("command", Json.str "seek_to"), ("value_ms", Json.int m)], []) := by
    show parseStep (e + 1 + 1 + 1) PMode.objKV
        ('"' :: ("command\": \"seek_to\", \"value_ms\":".data ++ (' ' :: (intChars m ++ [objClose]))))
        = some (PRes.fs [("command", Json.str "seek_to"), ("value_ms", Json.int m)], [])
    exact key
  rw [kb]
  rfl

theorem parseKV_last_pct (g : Nat) (m : Int) :
    parseStep (g + 1 + 1) PMode.objKV
      (' ' :: '"' :: ("value_percent\":".data ++ (' ' :: (intChars m ++ [objClose]))))
      = some (PRes.fs [("value_percent", Json.int m)], []) := by
  have key := parseStep_ws_value_int g m [objClose] (by decide)
  show (match parseStep (g + 1) PMode.value (' ' :: (intChars m ++ [objClose])) with
        | some (PRes.v v, r3) =>
          match skipWs r3 with
          | c3 :: r4 =>
            if c3 = ',' then
              match parseStep (g + 1) PMode.objKV r4 with
              | some (PRes.fs l, r5) => some (PRes.fs (("value_percent", v) :: l), r5)
              | _ => none
            else if c3 = objClose then some (PRes.fs [("value_percent", v)], r4)
            else none
          | [] => none
        | _ => none)
      = some (PRes.fs [("value_percent", Json.int m)], [])
  rw [key]
  rfl

theorem parseKV_vol (g : Nat) (m : Int) :
    parseStep (g + 1 + 1 + 1) PMode.objKV
      ('"' :: ("command\": \"set_volume\", \"value_percent\":".data ++ (' ' :: (intChars m ++ [objClose]))))
      = some (PRes.fs [("command", Json.str "set_volume"), ("value_percent", Json.int m)], []) := by
  have key := parseKV_last_pct g m
  show (match parseStep (g + 1 + 1) PMode.objKV
          (' ' :: '"' :: ("value_percent\":".data ++ (' ' :: (intChars m ++ [objClose])))) with
        | some (PRes.fs l, r5) => some (PRes.fs (("command", Json.str "set_volume") :: l), r5)
        | _ => none)
      = some (PRes.fs [("command", Json.str "set_volume"), ("value_percent", Json.int m)], [])
  rw [key]

theorem parseStep_vol (e : Nat) (m : Int) :
    parseStep (e + 1 + 1 + 1 + 1 + 1) PMode.value (renderJson (dispatchCommand (Intent.vol m)))
      = some (PRes.v (dispatchCommand (Intent.vol m)), []) := by
  have key := parseKV_vol e m
  show (match parseStep (e + 1 + 1 + 1 + 1) PMode.objBody
          ("\"command\": \"set_volume\", \"value_percent\":".data ++ (' ' :: (intChars m ++ [objClose]))) with
        | some (PRes.fs l, r) => some (PRes.v (Json.obj l), r)
        | _ => none)
      = some (PRes.v (dispatchCommand (Intent.vol m)), [])
  have kb : parseStep (e + 1 + 1 + 1 + 1) PMode.objBody
      ("\"command\": \"set_volume\", \"value_percent\":".data ++ (' ' :: (intChars m ++ [objClose])))
      = some (PRes.fs [("command", Json.str "set_volume"), ("value_percent", Json.int m)], []) := by
    show parseStep (e + 1 + 1 + 1) PMode.objKV
        ('"' :: ("command\": \"set_volume\", \"value_percent\":".data ++ (' ' :: (intChars m ++ [objClose]))))
        = some (PRes.fs [("command", Json.str "set_volume"), ("value_percent", Json.int m)], [])
    exact key
  rw [kb]
  rfl

/-! ### UTF-8 round-trip on ASCII output and the full byte-level round-trip -/

theorem natChars_ascii (n : Nat) : ∀ c ∈ natChars n, c.toNat < 128 := by
  intro c hc
  by_cases h : n = 0
  · subst h; simp [natChars] at hc; subst hc; decide
  · simp only [natChars, if_neg h, List.mem_map, List.mem_reverse] at hc
    obtain ⟨d, hd, rfl⟩ := hc
    have hlt := Nat.digits_lt_base (by norm_num) hd
    rw [digitChar_toNat d hlt]
    omega

theorem intChars_ascii (m : Int) : ∀ c ∈ intChars m, c.toNat < 128 := by
  intro c hc
  unfold intChars at hc
  by_cases hm : m < 0
  · rw [if_pos hm] at hc
    rcases List.mem_cons.mp hc with rfl | hc
    · decide
    · exact natChars_ascii _ c hc
  · rw [if_neg hm] at hc
    exact natChars_ascii _ c hc

theorem utf8F_ascii (l : List Char) (h : ∀ c ∈ l, c.toNat < 128) :
    ∀ f, l.length < f → utf8DecodeF f (l.flatMap encodeChar) = some l := by
  induction l with
  | nil =>
    intro f hf
    cases f with
    | zero => omega
    | succ f => rfl
  | cons c t ih =>
    intro f hf
    cases f with
    | zero => omega
    | succ f =>
      have hc : c.toNat < 128 := h c (List.mem_cons_self c t)
      have henc : encodeChar c = [c.toNat] := by unfold encodeChar; rw [if_pos hc]
      rw [List.flatMap_cons, henc]
      show utf8DecodeF (f + 1) (c.toNat :: t.flatMap encodeChar) = some (c :: t)
      simp only [utf8DecodeF]
      rw [if_pos hc, ih (fun x hx => h x (List.mem_cons_of_mem c hx)) f
        (by simp only [List.length_cons] at hf; omega)]
      simp [Char.ofNat_toNat]

theorem encodeChar_length_pos (c : Char) : 1 ≤ (encodeChar c).length := by
  unfold encodeChar
  split_ifs <;> simp

theorem flatMap_encode_length (l : List Char) : l.length ≤ (l.flatMap encodeChar).length := by
  induction l with
  | nil => simp
  | cons c t ih =>
    rw [List.flatMap_cons, List.length_append, List.length_cons]
    have := encodeChar_length_pos c
    omega

theorem utf8_ascii (l : List Char) (h : ∀ c ∈ l, c.toNat < 128) :
    utf8Decode (l.flatMap encodeChar) = some l := by
  have hlen := flatMap_encode_length l
  exact utf8F_ascii l h ((l.flatMap encodeChar).length + 1) (by omega)

theorem renderJson_seek (m : Int) :
    renderJson (dispatchCommand (Intent.seek m))
      = objOpen :: ("\"command\": \"seek_to\", \"value_ms\":".data
          ++ (' ' :: (intChars m ++ [objClose]))) := rfl

theorem renderJson_vol (m : Int) :
    renderJson (dispatchCommand (Intent.vol m))
      = objOpen :: ("\"command\": \"set_volume\", \"value_percent\":".data
          ++ (' ' :: (intChars m ++ [objClose]))) := rfl

theorem render_seek_ascii (m : Int) :
    ∀ c ∈ renderJson (dispatchCommand (Intent.seek m)), c.toNat < 128 := by
  intro c hc
  rw [renderJson_seek] at hc
  rcases List.mem_cons.mp hc with rfl | hc
  · decide
  · rcases List.mem_append.mp hc with hc | hc
    · exact (by decide : ∀ x ∈ "\"command\": \"seek_to\", \"value_ms\":".data, x.toNat < 128) c hc
    · rcases List.mem_cons.mp hc with rfl | hc
      · decide
      · rcases List.mem_append.mp hc with hc | hc
        · exact intChars_ascii m c hc
        · simp at hc; subst hc; decide

theorem render_vol_ascii (m : Int) :
    ∀ c ∈ renderJson (dispatchCommand (Intent.vol m)), c.toNat < 128 := by
  intro c hc
  rw [renderJson_vol] at hc
  rcases List.mem_cons.mp hc with rfl | hc
  · decide
  · rcases List.mem_append.mp hc with hc | hc
    · exact (by decide : ∀ x ∈ "\"command\": \"set_volume\", \"value_percent\":".data, x.toNat < 128) c hc
    · rcases List.mem_cons.mp hc with rfl | hc
      · decide
      · rcases List.mem_append.mp hc with hc | hc
        · exact intChars_ascii m c hc
        · simp at hc; subst hc; decide

theorem jsonParse_seek (m : Int) :
    jsonParse (renderJson (dispatchCommand (Intent.seek m)))
      = some (dispatchCommand (Intent.seek m)) := by
  have hlen : 1 ≤ (renderJson (dispatchCommand (Intent.seek m))).length := by
    rw [renderJson_seek]; simp
  obtain ⟨e, he⟩ : ∃ e, 3 * (renderJson (dispatchCommand (Intent.seek m))).length + 3
      = e + 1 + 1 + 1 + 1 + 1 :=
    ⟨3 * (renderJson (dispatchCommand (Intent.seek m))).length - 2, by omega⟩
  unfold jsonParse
  rw [he, parseStep_seek e m]
  rfl

theorem jsonParse_vol (m : Int) :
    jsonParse (renderJson (dispatchCommand (Intent.vol m)))
      = some (dispatchCommand (Intent.vol m)) := by
  have hlen : 1 ≤ (renderJson (dispatchCommand (Intent.vol m))).length := by
    rw [renderJson_vol]; simp
  obtain ⟨e, he⟩ : ∃ e, 3 * (renderJson (dispatchCommand (Intent.vol m))).length + 3
      = e + 1 + 1 + 1 + 1 + 1 :=
    ⟨3 * (renderJson (dispatchCommand (Intent.vol m))).length - 2, by omega⟩
  unfold jsonParse
  rw [he, parseStep_vol e m]
  rfl

theorem parsePayload_seek (m : Int) :
    parsePayload (send_command (dispatchCommand (Intent.seek m)))
      = some (dispatchCommand (Intent.seek m)) := by
  show (match utf8Decode ((renderJson (dispatchCommand (Intent.seek m))).flatMap encodeChar) with
        | some cs => jsonParse cs
        | none => none)
      = some (dispatchCommand (Intent.seek m))
  rw [utf8_ascii _ (render_seek_ascii m)]
  exact jsonParse_seek m

theorem parsePayload_vol (m : Int) :
    parsePayload (send_command (dispatchCommand (Intent.vol m)))
      = some (dispatchCommand (Intent.vol m)) := by
  show (match utf8Decode ((renderJson (dispatchCommand (Intent.vol m))).flatMap encodeChar) with
        | some cs => jsonParse cs
        | none => none)
      = some (dispatchCommand (Intent.vol m))
  rw [utf8_ascii _ (render_vol_ascii m)]
  exact jsonParse_vol m

/-! ### Decomposition helpers -/

theorem parsePayload_decompose (data : List Nat) (j : Json) (h : parsePayload data = some j) :
    ∃ cs, utf8Decode data = some cs ∧ jsonParse cs = some j := by
  unfold parsePayload at h
  cases hu : utf8Decode data with
  | none => rw [hu] at h; exact absurd h (by simp)
  | some cs => rw [hu] at h; exact ⟨cs, rfl, h⟩

theorem uuid_debug_ne_state : DEBUG_CHAR_UUID ≠ STATE_CHAR_UUID := by decide

/-! ### The claims -/

/-- C1 (counterexample): the non-UTF-8 payload de ad be ef delivered on the
    debug source does not produce the raw fallback display wrapping the
    original bytes; it raises UnicodeDecodeError inside the try block, which
    the second except clause turns into the generic error report. -/
theorem C1_deadbeef_counterexample :
    notification_handler DEBUG_CHAR_UUID deadbeefBytes
      = Display.errorReport PyExc.unicodeDecodeError ∧
    (notification_handler DEBUG_CHAR_UUID deadbeefBytes).isRawHex = false :=
  ⟨rfl, rfl⟩

/-- C1 (amended): for every role and byte payload the handler never raises;
    a payload that is valid UTF-8 but not valid JSON yields the raw hex
    fallback wrapping the original bytes, while a payload that is not valid
    UTF-8 yields the generic error report, which does not carry the bytes. -/
theorem C1_malformed_amended (uuid : String) (data : List Nat) :
    (utf8Decode data = none →
       notification_handler uuid data = Display.errorReport PyExc.unicodeDecodeError) ∧
    (∀ cs, utf8Decode data = some cs → jsonParse cs = none →
       notification_handler uuid data = Display.rawHex data) := by
  constructor
  · intro h
    simp only [notification_handler, tryBody, h]
  · intro cs hu hj
    simp only [notification_handler, tryBody, hu, hj]

/-- C1 (witness): a payload that is valid UTF-8 but not valid JSON gets the
    raw hex fallback wrapping the original bytes. -/
theorem C1_malformed_witness :
    notification_handler DEBUG_CHAR_UUID notJsonBytes = Display.rawHex notJsonBytes :=
  (C1_malformed_amended DEBUG_CHAR_UUID notJsonBytes).2 "@@@".data rfl rfl

/-- C2 (counterexample): for the command set_volume with value_percent 150,
    interactive_mode performs no validation: exactly one transport write is
    issued and its bytes decode back to the over-range command. -/
theorem C2_overrange_counterexample :
    interactiveWrites (Intent.vol 150) ≠ [] ∧
    parsePayload (send_command (dispatchCommand (Intent.vol 150)))
      = some (Json.obj [("command", Json.str "set_volume"), ("value_percent", Json.int 150)]) :=
  ⟨by simp [interactiveWrites], parsePayload_vol 150⟩

/-- C2 (amended): set_volume performs no range validation and raises no
    ValidationError: for every integer value_percent, in range or not,
    exactly one transport write is issued, and the written bytes decode back
    to the set_volume command carrying that exact value. -/
theorem C2_set_volume_amended (p : Int) :
    interactiveWrites (Intent.vol p) = [send_command (dispatchCommand (Intent.vol p))] ∧
    parsePayload (send_command (dispatchCommand (Intent.vol p)))
      = some (Json.obj [("command", Json.str "set_volume"), ("value_percent", Json.int p)]) :=
  ⟨rfl, parsePayload_vol p⟩

/-- C3 (counterexample): for the command seek_to with value_ms equal to -1,
    interactive_mode performs no validation: exactly one transport write is
    issued and its bytes decode back to the negative-position command. -/
theorem C3_negative_counterexample :
    interactiveWrites (Intent.seek (-1)) ≠ [] ∧
    parsePayload (send_command (dispatchCommand (Intent.seek (-1))))
      = some (Json.obj [("command", Json.str "seek_to"), ("value_ms", Json.int (-1))]) :=
  ⟨by simp [interactiveWrites], parsePayload_seek (-1)⟩

/-- C3 (amended): seek_to performs no range validation and raises no
    ValidationError: for every integer value_ms, negative included, exactly
    one transport write is issued, and the written bytes decode back to the
    seek_to command carrying that exact value. -/
theorem C3_seek_amended (ms : Int) :
    interactiveWrites (Intent.seek ms) = [send_command (dispatchCommand (Intent.seek ms))] ∧
    parsePayload (send_command (dispatchCommand (Intent.seek ms)))
      = some (Json.obj [("command", Json.str "seek_to"), ("value_ms", Json.int ms)]) :=
  ⟨rfl, parsePayload_seek ms⟩

/-- C4: for every StateSource payload whose parsed document is an object
    with type equal to "stateUpdate", the handler shows the state with
    dict.get defaults: a missing is_playing displays as false, a missing
    volume_percent as 0, and a missing track or artist as "Unknown". -/
theorem C4_state_defaults (data : List Nat) (fields : List (String × Json))
    (hparse : parsePayload data = some (Json.obj fields))
    (htype : jGet fields "type" = some (Json.str "stateUpdate")) :
    notification_handler STATE_CHAR_UUID data
      = Display.stateShown (jGetD fields "track" (Json.str "Unknown"))
          (jGetD fields "artist" (Json.str "Unknown"))
          (jGetD fields "is_playing" (Json.bool false))
          (jGetD fields "volume_percent" (Json.int 0)) ∧
    (jGet fields "track" = none → jGetD fields "track" (Json.str "Unknown") = Json.str "Unknown") ∧
    (jGet fields "artist" = none → jGetD fields "artist" (Json.str "Unknown") = Json.str "Unknown") ∧
    (jGet fields "is_playing" = none → jGetD fields "is_playing" (Json.bool false) = Json.bool false) ∧
    (jGet fields "volume_percent" = none → jGetD fields "volume_percent" (Json.int 0) = Json.int 0) := by
  obtain ⟨cs, hu, hj⟩ := parsePayload_decompose data (Json.obj fields) hparse
  refine ⟨?_, ?_, ?_, ?_, ?_⟩
  · simp only [notification_handler, tryBody, hu, hj, if_pos rfl, htype]
    rfl
  · intro h; simp [jGetD, h]
  · intro h; simp [jGetD, h]
  · intro h; simp [jGetD, h]
  · intro h; simp [jGetD, h]

/-- C4 (witness): the end-to-end scenario payload, with artist and
    volume_percent absent, displays artist "Unknown" and volume 0. -/
theorem C4_state_defaults_witness :
    notification_handler STATE_CHAR_UUID stateScenarioBytes
      = Display.stateShown (Json.str "Song A") (Json.str "Unknown") (Json.bool true) (Json.int 0) :=
  (C4_state_defaults stateScenarioBytes
    [("type", Json.str "stateUpdate"), ("track", Json.str "Song A"), ("is_playing", Json.bool true)]
    rfl rfl).1

/-- C5: round-trip of the command codec: for every valid command, the bytes
    send_command writes decode (UTF-8 then JSON) back to exactly the
    dictionary interactive_mode built, whose keys are exactly the fields the
    data model specifies for the command tag; in particular seek_to with
    value_ms 5000 round-trips to its two-field document. -/
theorem C5_command_roundtrip (c : Intent) (h : validCommand c) :
    parsePayload (send_command (dispatchCommand c)) = some (dispatchCommand c) ∧
    objKeys (dispatchCommand c) = specFieldsFor c := by
  refine ⟨?_, ?_⟩
  · cases c with
    | play => rfl
    | pause => rfl
    | next => rfl
    | prev => rfl
    | seek ms => exact parsePayload_seek ms
    | vol p => exact parsePayload_vol p
  · cases c <;> rfl

/-- C5 (witness): the scenario command seek_to with value_ms 5000. -/
theorem C5_command_roundtrip_witness :
    validCommand (Intent.seek 5000) ∧
    parsePayload (send_command (dispatchCommand (Intent.seek 5000)))
      = some (Json.obj [("command", Json.str "seek_to"), ("value_ms", Json.int 5000)]) :=
  ⟨by show (0 : Int) ≤ 5000; decide,
   (C5_command_roundtrip (Intent.seek 5000) (by show (0 : Int) ≤ 5000; decide)).1⟩

/-- C6 (counterexample): a DebugSource payload whose level is the
    unrecognized string "BOGUS" is displayed with level "BOGUS", not with
    level INFO: dict.get only substitutes the default when the key is
    absent. -/
theorem C6_unrecognized_counterexample :
    notification_handler DEBUG_CHAR_UUID bogusLevelBytes
      = Display.debugShown "📝" (Json.str "BOGUS") (Json.str "LOG") (Json.str "") none ∧
    Json.str "BOGUS" ≠ Json.str "INFO" := by
  refine ⟨rfl, ?_⟩
  intro h
  injection h with h2
  exact absurd h2 (by decide)

/-- C6 (amended): the level of a debug event defaults to INFO only when the
    level key is absent; a present but unrecognized level string is kept
    as-is and displayed with the fallback symbol of the symbol table, not
    replaced by INFO. -/
theorem C6_level_default_amended (data : List Nat) (fields : List (String × Json))
    (hparse : parsePayload data = some (Json.obj fields)) :
    (jGet fields "level" = none →
       notification_handler DEBUG_CHAR_UUID data
         = Display.debugShown "ℹ️" (Json.str "INFO") (jGetD fields "type" (Json.str "LOG"))
             (jGetD fields "message" (Json.str "")) (dataAtt fields)) ∧
    (∀ s, jGet fields "level" = some (Json.str s) → level_symbols.lookup s = none →
       notification_handler DEBUG_CHAR_UUID data
         = Display.debugShown "📝" (Json.str s) (jGetD fields "type" (Json.str "LOG"))
             (jGetD fields "message" (Json.str "")) (dataAtt fields)) := by
  obtain ⟨cs, hu, hj⟩ := parsePayload_decompose data (Json.obj fields) hparse
  constructor
  · intro h
    simp only [notification_handler, tryBody, hu, hj, if_neg uuid_debug_ne_state, if_pos rfl,
      jGetD, h, Option.getD_none, symbolFor]
    rfl
  · intro s hs hlook
    simp only [notification_handler, tryBody, hu, hj, if_neg uuid_debug_ne_state, if_pos rfl,
      jGetD, hs, Option.getD_some, symbolFor, hlook, Option.getD_none]
    rfl

/-- C6 (witness): a payload with the unrecognized level "WEIRD" and message
    "hi" keeps level "WEIRD" and shows the fallback symbol. -/
theorem C6_level_default_witness :
    notification_handler DEBUG_CHAR_UUID weirdLevelBytes
      = Display.debugShown "📝" (Json.str "WEIRD") (Json.str "LOG") (Json.str "hi") none :=
  (C6_level_default_amended weirdLevelBytes
    [("level", Json.str "WEIRD"), ("message", Json.str "hi")] rfl).2 "WEIRD" rfl rfl

/-- C7: for every payload of the info characteristic that is not valid
    structured text, read_device_info reports the decoding failure through
    its error path and never shows a degraded capabilities document. -/
theorem C7_info_decode_error (data : List Nat) :
    (utf8Decode data = none →
       read_device_info data = InfoDisplay.infoFailed PyExc.unicodeDecodeError) ∧
    (∀ cs, utf8Decode data = some cs → jsonParse cs = none →
       read_device_info data = InfoDisplay.infoFailed PyExc.jsonDecodeError) ∧
    (parsePayload data = none → ∀ info, read_device_info data ≠ InfoDisplay.infoShown info) := by
  refine ⟨?_, ?_, ?_⟩
  · intro h
    simp only [read_device_info, h]
  · intro cs hu hj
    simp only [read_device_info, hu, hj]
  · intro hp info
    unfold parsePayload at hp
    unfold read_device_info
    cases hu : utf8Decode data with
    | none => simp
    | some cs =>
      rw [hu] at hp
      have hp2 : jsonParse cs = none := by simpa using hp
      simp [hp2]

/-- C7 (witness): a UTF-8 but non-JSON info payload fails with the decoding
    error report. -/
theorem C7_info_decode_error_witness :
    read_device_info oopsBytes = InfoDisplay.infoFailed PyExc.jsonDecodeError :=
  (C7_info_decode_error oopsBytes).2.1 "not structured".data rfl rfl

/-- C8: invariant on every outbound command dictionary the dispatcher
    builds: its keys are exactly the fields the data model specifies for the
    command tag, with the command field holding the tag itself — play,
    pause, next and previous carry only command; seek_to carries exactly
    command and value_ms; set_volume exactly command and value_percent. -/
theorem C8_command_fields (i : Intent) :
    objKeys (dispatchCommand i) = specFieldsFor i ∧
    objField (dispatchCommand i) "command" = some (Json.str (tagOf i)) := by
  cases i <;> exact ⟨rfl, rfl⟩

/-- C9: the data attachment of a debug event is produced only when the data
    value is truthy: a present but falsy data value (empty containers, empty
    string, zero, false or null) is treated exactly like an absent key, and
    whatever attachment the handler displays is the truthiness-filtered
    lookup. -/
theorem C9_debug_data_truthy (data : List Nat) (fields : List (String × Json))
    (hparse : parsePayload data = some (Json.obj fields)) :
    (∀ v, jGet fields "data" = some v → pyTruthy v = false → dataAtt fields = none) ∧
    (∀ v, dataAtt fields = some v → pyTruthy v = true ∧ jGet fields "data" = some v) ∧
    (∀ sym level lt msg att,
       notification_handler DEBUG_CHAR_UUID data = Display.debugShown sym level lt msg att →
       att = dataAtt fields) := by
  obtain ⟨cs, hu, hj⟩ := parsePayload_decompose data (Json.obj fields) hparse
  refine ⟨?_, ?_, ?_⟩
  · intro v hv ht
    unfold dataAtt
    rw [hv]
    show (if pyTruthy v = true then some v else none) = none
    simp [ht]
  · intro v hv
    unfold dataAtt at hv
    cases h : jGet fields "data" with
    | none => rw [h] at hv; exact absurd hv (by simp)
    | some w =>
      rw [h] at hv
      have hv2 : (if pyTruthy w = true then some w else none) = some v := hv
      by_cases hw : pyTruthy w = true
      · rw [if_pos hw] at hv2
        obtain rfl : w = v := by simpa using hv2
        exact ⟨hw, rfl⟩
      · rw [if_neg hw] at hv2
        exact absurd hv2 (by simp)
  · intro sym level lt msg att heq
    revert heq
    simp only [notification_handler, tryBody, hu, hj, if_neg uuid_debug_ne_state, if_pos rfl]
    cases hsym : symbolFor (jGetD fields "level" (Json.str "INFO")) with
    | error e =>
      cases e <;> intro heq <;> exact absurd heq (by simp)
    | ok sym2 =>
      intro heq
      have := (Display.debugShown.injEq ..).mp heq
      exact this.2.2.2.2.symm

/-- C9 (witness): the data key present with the falsy value 0 produces no
    attachment. -/
theorem C9_debug_data_truthy_witness : dataAtt [("data", Json.int 0)] = none :=
  (C9_debug_data_truthy falsyDataBytes [("data", Json.int 0)] rfl).1 (Json.int 0) rfl rfl

/-- C10: the handler is total — the two except clauses convert every
    exception the try block can raise into a normal display, json decoding
    failures to the raw hex fallback and everything else to the generic
    error report — and a payload that parses to a non-object document on the
    state or debug source produces neither a typed event nor a raw fallback
    but the generic error report for the AttributeError of dict access. -/
theorem C10_handler_total (uuid : String) (data : List Nat) :
    (∀ e, tryBody uuid data = Except.error e →
       notification_handler uuid data = Display.rawHex data ∨
       notification_handler uuid data = Display.errorReport e) ∧
    (∀ m, parsePayload data = some m → m.isObj = false →
       notification_handler STATE_CHAR_UUID data = Display.errorReport PyExc.attributeError ∧
       notification_handler DEBUG_CHAR_UUID data = Display.errorReport PyExc.attributeError) := by
  constructor
  · intro e he
    unfold notification_handler
    rw [he]
    cases e
    · right; rfl
    · left; rfl
    · right; rfl
    · right; rfl
  · intro m hm hobj
    obtain ⟨cs, hu, hj⟩ := parsePayload_decompose data m hm
    constructor
    · simp only [notification_handler, tryBody, hu, hj, if_pos rfl]
      cases m with
      | obj fields => exact absurd hobj (by simp [Json.isObj])
      | null => rfl
      | bool b => rfl
      | int n => rfl
      | str s => rfl
      | arr xs => rfl
    · simp only [notification_handler, tryBody, hu, hj, if_neg uuid_debug_ne_state, if_pos rfl]
      cases m with
      | obj fields => exact absurd hobj (by simp [Json.isObj])
      | null => rfl
      | bool b => rfl
      | int n => rfl
      | str s => rfl
      | arr xs => rfl

/-- C10 (witness): the payload 42 is valid JSON but no object; on the state
    source it reaches the generic error branch, not a typed or raw event. -/
theorem C10_handler_total_witness :
    notification_handler STATE_CHAR_UUID bareNumberBytes
      = Display.errorReport PyExc.attributeError :=
  ((C10_handler_total STATE_CHAR_UUID bareNumberBytes).2 (Json.int 42) rfl rfl).1
